import Mathlib

/-!
Verification of the audio-source selection and stream-quality logic of
Vesktop's `src/renderer/components/ScreenSharePicker.tsx`.

The data model follows the source file: audio nodes are property bags over
the five well-known keys used by the picker, selections are either one of
the two special string sources or a list of node patterns, and the quality
settings are the two radio-button enums plus flags.  Each definition is a
direct translation of the corresponding TypeScript function (line numbers
cited in the doc comments).
-/

namespace Vesktop

/-- The two special sources, the string literals "None" and "Entire System"
(`type SpecialSource`, line 36). -/
inductive SpecialSource where
  | sNone
  | entireSystem
deriving DecidableEq, BEq

/-- An audio node as used by the picker: the five well-known properties
read from a venmic `Node` (`application.name`, `application.process.binary`,
`application.process.id`, `media.name`, `media.class`); `none` models an
absent key. -/
structure Node where
  name : Option String := none
  binary : Option String := none
  pid : Option String := none
  mediaName : Option String := none
  mediaClass : Option String := none
deriving DecidableEq

/-- `type AudioSource = SpecialSource | Node` (line 38). -/
inductive AudioSource where
  | special (s : SpecialSource)
  | node (n : Node)
deriving DecidableEq

/-- `type AudioSources = SpecialSource | Node[]` (line 39). -/
inductive AudioSources where
  | special (s : SpecialSource)
  | list (l : List Node)
deriving DecidableEq

/-- An entry of the select list: `interface AudioItem` with a display `name`
and an `AudioSource` value (lines 41-44).  The `name` is `Option String`
because the source can build an item whose label is a possibly-`undefined`
property (the binary item). -/
structure AudioItem where
  name : Option String
  value : AudioSource
deriving DecidableEq

/-- JavaScript truthiness of a possibly-absent string: `undefined` and the
empty string are falsy. -/
def truthy : Option String → Bool
  | none => false
  | some s => s != ""

/-- JavaScript template-literal rendering of a possibly-absent string:
`undefined` prints as "undefined". -/
def jsStr : Option String → String
  | none => "undefined"
  | some s => s

/-- The display string of a special source. -/
def specialSourceName : SpecialSource → String
  | .sNone => "None"
  | .entireSystem => "Entire System"

/-- `isSpecialSource` applied to an `AudioSource` value
(`typeof value === "string"`, lines 400-402). -/
def isSpecialAudioSource : AudioSource → Bool
  | .special _ => true
  | .node _ => false

/-- `isSpecialSource` applied to a possibly-undefined `AudioSources` value
(`typeof value === "string"`; `undefined` is not a string). -/
def isSpecialAudioSources : Option AudioSources → Bool
  | some (.special _) => true
  | _ => false

/-- One key of `hasMatchingProps`: `value[key] === other[key]` for a key
present in `value`; an absent key imposes no constraint. -/
def keyMatches (v o : Option String) : Bool :=
  match v with
  | none => true
  | some s => o == some s

/-- `hasMatchingProps(value, other)` (lines 404-406):
`Object.keys(value).every(key => value[key] === other[key])`. -/
def hasMatchingProps (value other : Node) : Bool :=
  keyMatches value.name other.name &&
  keyMatches value.binary other.binary &&
  keyMatches value.pid other.pid &&
  keyMatches value.mediaName other.mediaName &&
  keyMatches value.mediaClass other.mediaClass

/-- The fallback item used for `rtn[0]` when the list is empty; unreachable
in `mapToAudioItem` because a base item is always pushed first when the
granular section runs. -/
def fallbackItem : AudioItem := { name := none, value := .special .sNone }

/-- The TypeScript cast `first.value as Node`; the special case is
unreachable because `rtn[0]` is always a node item in the granular section. -/
def asNode : AudioSource → Node
  | .node n => n
  | .special _ => {}

/-- `mapToAudioItem(node, granularSelect)` (lines 408-462), translated
branch for branch.  Note that the process-id item (lines 431-439) is pushed
unconditionally, unlike the `media.name` and `media.class` items which are
guarded by truthiness checks. -/
def mapToAudioItem (node : AudioSource) (granularSelect : Bool) : List AudioItem :=
  match node with
  | .special s => [{ name := some (specialSourceName s), value := .special s }]
  | .node n =>
    let rtn : List AudioItem :=
      if truthy n.name then [{ name := n.name, value := .node { name := n.name } }] else []
    if !granularSelect then rtn
    else
      let rtn :=
        if !truthy n.name then
          rtn ++ [{ name := n.binary, value := .node { binary := n.binary } }]
        else rtn
      let first := rtn.headD fallbackItem
      let firstValues := asNode first.value
      let rtn := rtn ++
        [{ name := some (jsStr first.name ++ " (" ++ jsStr n.pid ++ ")"),
           value := .node { firstValues with pid := n.pid } }]
      let rtn :=
        if truthy n.mediaName then
          rtn ++ [{ name := some (jsStr first.name ++ " [" ++ jsStr n.mediaName ++ "]"),
                    value := .node { firstValues with mediaName := n.mediaName } }]
        else rtn
      if !truthy n.mediaClass then rtn
      else rtn ++ [{ name := some (jsStr first.name ++ " [" ++ jsStr n.mediaClass ++ "]"),
                     value := .node { firstValues with mediaClass := n.mediaClass } }]

/-- `isSelected(value)` (lines 485-495): `undefined` selection selects
nothing; a special value on either side is compared by strict equality
(a string is never `===` to an array or object); otherwise some stored
entry must match the candidate. -/
def isSelected (audioSources : Option AudioSources) (value : AudioSource) : Bool :=
  match audioSources with
  | none => false
  | some sources =>
    match sources, value with
    | .special a, .special b => a == b
    | .special _, .node _ => false
    | .list _, .special _ => false
    | .list l, .node v => l.any (fun source => hasMatchingProps source v)

/-- `audioSources || []` in the append branch of `update` (line 513). -/
def orEmptyList : Option AudioSources → List Node
  | some (.list l) => l
  | _ => []

/-- `update(value)` (lines 497-514), the toggle operation.  The removal
branch is `audioSources?.filter(x => !hasMatchingProps(x, value)) ?? "None"`:
the `??` fallback fires only when `audioSources` is `undefined` (an empty
array is not nullish), so emptying the list yields `[]`, not `"None"`. -/
def update (audioSources : Option AudioSources) (value : AudioSource) : AudioSources :=
  match value with
  | .special s => .special s
  | .node v =>
    if isSpecialAudioSources audioSources then .list [v]
    else if isSelected audioSources value then
      match audioSources with
      | some (.list l) => .list (l.filter (fun x => ! hasMatchingProps x v))
      | _ => .special .sNone
    else .list (orEmptyList audioSources ++ [v])

/-- `uniqueName(value, index, list)` (lines 516-517):
`list.findIndex(x => x.name === value.name) === index`. -/
def uniqueName (value : AudioItem) (index : Nat) (list : List AudioItem) : Bool :=
  list.findIdx (fun x => x.name == value.name) == index

/-- JavaScript `Array.prototype.filter` with the element index passed to the
predicate, as used by `.filter(uniqueName)` (line 547). -/
def filterWithIndex {α : Type} (p : α → Nat → Bool) : List α → Nat → List α
  | [], _ => []
  | x :: xs, i => if p x i then x :: filterWithIndex p xs (i + 1) else filterWithIndex p xs (i + 1)

/-- The dedup-by-label pass `list.filter(uniqueName)` over the flattened
candidate list (lines 544-547). -/
def dedupByName (l : List AudioItem) : List AudioItem :=
  filterWithIndex (fun v i => uniqueName v i l) l 0

/-- `const StreamResolutions = ["480", "720", "1080", "1440"]` (line 28). -/
inductive StreamResolution where
  | r480
  | r720
  | r1080
  | r1440
deriving DecidableEq

/-- `const StreamFps = ["15", "30", "60"]` (line 29). -/
inductive StreamFps where
  | f15
  | f30
  | f60
deriving DecidableEq

/-- `Number(settings.resolution)` on the resolution enum. -/
def StreamResolution.toNumber : StreamResolution → Nat
  | .r480 => 480
  | .r720 => 720
  | .r1080 => 1080
  | .r1440 => 1440

/-- `Number(settings.fps)` on the fps enum. -/
def StreamFps.toNumber : StreamFps → Nat
  | .f15 => 15
  | .f30 => 30
  | .f60 => 60

/-- `interface StreamSettings` (lines 46-52). -/
structure StreamSettings where
  resolution : StreamResolution
  fps : StreamFps
  audio : Bool := true
  audioSources : Option AudioSources := none
  contentHint : Option String := none
deriving DecidableEq

/-- `Math.round(height * (16 / 9))` (lines 83 and 635) on a natural height:
rounding half up of the exact rational 16h/9. -/
def roundSixteenNinths (height : Nat) : Nat :=
  (height * 32 + 9) / 18

/-- The derived quality parameters: the fields computed from
`currentSettings` in `patchStreamQuality` (lines 81-103) and in the submit
handler (lines 633-644). -/
structure QualityProfile where
  frameRate : Nat
  width : Nat
  height : Nat
  pixelCount : Nat
  bitrateMin : Nat
  bitrateMax : Nat
  bitrateTarget : Nat
deriving DecidableEq

/-- The quality computation shared by `patchStreamQuality` (lines 81-88)
and the submit handler (lines 633-635): frame rate and height from the two
enums, `width = Math.round(height * 16/9)`, `pixelCount = height * width`,
and the three fixed bitrate constants. -/
def qualityProfile (settings : StreamSettings) : QualityProfile :=
  let framerate := settings.fps.toNumber
  let height := settings.resolution.toNumber
  let width := roundSixteenNinths height
  { frameRate := framerate
    width := width
    height := height
    pixelCount := height * width
    bitrateMin := 500000
    bitrateMax := 8000000
    bitrateTarget := 600000 }

/-- The mutable fields of the `encode` / `capture` sub-objects touched by
`patchStreamQuality`; `rest` stands for the untouched remaining properties. -/
structure SubOpts where
  framerate : Option Nat := none
  width : Option Nat := none
  height : Option Nat := none
  pixelCount : Option Nat := none
  rest : List (String × Nat) := []
deriving DecidableEq

/-- The per-stream options object passed to `patchStreamQuality`: the three
bitrate fields, an optional `encode` sub-object (guarded by `if (opts?.encode)`),
the `capture` sub-object (accessed unconditionally by the source), and
`rest` for the untouched remaining properties. -/
structure StreamOpts where
  bitrateMin : Option Nat := none
  bitrateMax : Option Nat := none
  bitrateTarget : Option Nat := none
  encode : Option SubOpts := none
  capture : SubOpts := {}
  rest : List (String × Nat) := []
deriving DecidableEq

/-- `patchStreamQuality(opts)` (lines 78-104): no-op when `currentSettings`
is null; otherwise overwrite the three bitrate fields, patch `opts.encode`
only if present, and patch `opts.capture`. -/
def patchStreamQuality (currentSettings : Option StreamSettings) (opts : StreamOpts) : StreamOpts :=
  match currentSettings with
  | none => opts
  | some settings =>
    let framerate := settings.fps.toNumber
    let height := settings.resolution.toNumber
    let width := roundSixteenNinths height
    let opts1 := { opts with
      bitrateMin := some 500000
      bitrateMax := some 8000000
      bitrateTarget := some 600000 }
    let opts2 :=
      match opts1.encode with
      | some encode =>
        { opts1 with encode := some { encode with
            framerate := some framerate
            width := some width
            height := some height
            pixelCount := some (height * width) } }
      | none => opts1
    { opts2 with capture := { opts2.capture with
        framerate := some framerate
        width := some width
        height := some height
        pixelCount := some (height * width) } }

/-- JavaScript `String.prototype.split(":")` on the character list of the
key: splits at every colon, keeping empty segments, and yields at least one
segment. -/
def splitColonAux : List Char → List (List Char)
  | [] => [[]]
  | c :: cs =>
    match splitColonAux cs with
    | [] => [[]]
    | s :: rest => if c = ':' then [] :: s :: rest else (c :: s) :: rest

/-- `streamKey.split(":")` (line 110). -/
def jsSplitColon (s : String) : List String :=
  (splitColonAux s.data).map (fun cs => String.mk cs)

/-- `streamKey.split(":").at(-1)` (line 110): the owner identifier embedded
at the end of the composite stream key. -/
def ownerOfStreamKey (streamKey : String) : Option String :=
  (jsSplitColon streamKey).getLast?

/-- The `STREAM_CLOSE` subscriber (lines 109-117): the number of
`VesktopNative.virtmic.stop()` calls made for one event.  The handler
returns early unless the owner extracted from the stream key equals the
current user's id. -/
def onStreamClose (streamKey userId : String) : Nat :=
  let owner := ownerOfStreamKey streamKey
  if owner != some userId then 0 else 1

/-- The constraint object built by the delayed step (lines 660-667):
`getConstraints()` base spread, then `frameRate`, `width`/`height` as
min/ideal/max triples, one `advanced` entry, and `resizeMode: "none"`. -/
structure TrackConstraints where
  frameRate : Option Nat := none
  width : Option (Nat × Nat × Nat) := none
  height : Option (Nat × Nat × Nat) := none
  advanced : List (Nat × Nat) := []
  resizeMode : Option String := none
deriving DecidableEq

/-- A live capture track: its current constraints and whether
`applyConstraints` would succeed on it. -/
structure VideoTrack where
  constraints : TrackConstraints := {}
  applyOk : Bool := true
deriving DecidableEq

/-- One connection of the media-engine store: its owning user and the video
tracks of `conn.input.stream`. -/
structure Connection where
  streamUserId : String
  videoTracks : List VideoTrack := []
deriving DecidableEq

/-- Outcome of the delayed apply step when it does not throw. -/
inductive ApplyResult where
  | noConnection
  | applied (constraints : TrackConstraints)
  | applyFailedLogged
deriving DecidableEq

/-- The constraints object of lines 660-667. -/
def buildConstraints (base : TrackConstraints) (frameRate width height : Nat) : TrackConstraints :=
  { base with
    frameRate := some frameRate
    width := some (640, width, width)
    height := some (480, height, height)
    advanced := [(width, height)]
    resizeMode := some "none" }

/-- The body of the `setTimeout` callback (lines 652-679).  `if (!conn) return`
guards a vanished connection; `getVideoTracks()[0]` is not guarded, so a
stream with no video track makes `track.getConstraints()` throw a TypeError
that nothing in the callback catches; only the `applyConstraints` call sits
inside the inner try/catch, whose failure is logged. -/
def applyToTrack (connections : List Connection) (userId : String)
    (frameRate width height : Nat) : Except String ApplyResult :=
  match connections.find? (fun c => c.streamUserId == userId) with
  | none => .ok .noConnection
  | some conn =>
    match conn.videoTracks.head? with
    | none => .error "TypeError"
    | some track =>
      let constraints := buildConstraints track.constraints frameRate width height
      if track.applyOk then .ok (.applied constraints) else .ok .applyFailedLogged

/-- Modelled from the spec: the subset-equality matching relation of
section 4.2, "true iff every key present in `pattern` has an equal value in
the second argument at that key"; stated key by key over the five
well-known keys, to be compared with `hasMatchingProps`. -/
def specSubsetMatch (p t : Node) : Prop :=
  (∀ s, p.name = some s → t.name = some s) ∧
  (∀ s, p.binary = some s → t.binary = some s) ∧
  (∀ s, p.pid = some s → t.pid = some s) ∧
  (∀ s, p.mediaName = some s → t.mediaName = some s) ∧
  (∀ s, p.mediaClass = some s → t.mediaClass = some s)

/-- A concrete candidate item labelled "Chrome", built from a node with only
a name. -/
def chromeItemA : AudioItem :=
  { name := some "Chrome", value := .node { name := some "Chrome" } }

/-- A second, distinct candidate item with the identical label "Chrome" but
a different underlying pattern. -/
def chromeItemB : AudioItem :=
  { name := some "Chrome", value := .node { name := some "Chrome", pid := some "7" } }

/-!
Helper lemmas.
-/

/-- One key of the matcher constrains the target exactly when the key is
present on the left. -/
lemma keyMatches_iff (v o : Option String) :
    keyMatches v o = true ↔ ∀ s, v = some s → o = some s := by
  cases v with
  | none => simp [keyMatches]
  | some s => simp [keyMatches]

/-- The matcher is reflexive: every node matches itself. -/
lemma hasMatchingProps_refl (n : Node) : hasMatchingProps n n = true := by
  unfold hasMatchingProps keyMatches
  rcases n with ⟨a, b, c, d, e⟩
  cases a <;> cases b <;> cases c <;> cases d <;> cases e <;> simp

/-- Membership in the index-aware filter: an element is kept exactly when it
occurs at some position whose absolute index satisfies the predicate. -/
lemma mem_filterWithIndex {α : Type} (p : α → Nat → Bool) :
    ∀ (xs : List α) (n : Nat) (x : α),
      x ∈ filterWithIndex p xs n ↔ ∃ j, xs[j]? = some x ∧ p x (n + j) = true := by
  intro xs
  induction xs with
  | nil => intro n x; simp [filterWithIndex]
  | cons y ys ih =>
    intro n x
    simp only [filterWithIndex]
    by_cases h : p y n = true
    · rw [if_pos h]
      constructor
      · intro hx
        rcases List.mem_cons.mp hx with rfl | hx2
        · exact ⟨0, by simp, by simpa using h⟩
        · rcases (ih (n + 1) x).mp hx2 with ⟨j, hj, hp⟩
          refine ⟨j + 1, by simpa using hj, ?_⟩
          rw [show n + (j + 1) = n + 1 + j by omega]
          exact hp
      · rintro ⟨j, hj, hp⟩
        cases j with
        | zero =>
          simp only [List.getElem?_cons_zero, Option.some.injEq] at hj
          subst hj
          exact List.mem_cons_self y _
        | succ j =>
          simp only [List.getElem?_cons_succ] at hj
          refine List.mem_cons_of_mem y ((ih (n + 1) x).mpr ⟨j, hj, ?_⟩)
          rw [show n + 1 + j = n + (j + 1) by omega]
          exact hp
    · rw [if_neg h]
      rw [ih (n + 1) x]
      constructor
      · rintro ⟨j, hj, hp⟩
        refine ⟨j + 1, by simpa using hj, ?_⟩
        rw [show n + (j + 1) = n + 1 + j by omega]
        exact hp
      · rintro ⟨j, hj, hp⟩
        cases j with
        | zero =>
          simp only [List.getElem?_cons_zero, Option.some.injEq] at hj
          subst hj
          rw [Nat.add_zero] at hp
          exact absurd hp h
        | succ j =>
          simp only [List.getElem?_cons_succ] at hj
          refine ⟨j, hj, ?_⟩
          rw [show n + (j + 1) = n + 1 + j by omega] at hp
          exact hp

/-- Running the dedup filter over any suffix of the candidate list produces
pairwise-distinct display labels: an element is kept only at the unique
position equal to the first index of its label. -/
lemma dedup_names_nodup_aux (l : List AudioItem) :
    ∀ (xs : List AudioItem) (n : Nat),
      ((filterWithIndex (fun v i => uniqueName v i l) xs n).map (fun a => a.name)).Nodup := by
  intro xs
  induction xs with
  | nil => intro n; simp [filterWithIndex]
  | cons y ys ih =>
    intro n
    simp only [filterWithIndex]
    by_cases h : uniqueName y n l = true
    · rw [if_pos h]
      simp only [List.map_cons, List.nodup_cons]
      refine ⟨?_, ih (n + 1)⟩
      intro hmem
      rcases List.mem_map.mp hmem with ⟨z, hz, hname⟩
      rcases (mem_filterWithIndex (fun v i => uniqueName v i l) ys (n + 1) z).mp hz
        with ⟨j, hj, hp⟩
      unfold uniqueName at h hp
      simp only [beq_iff_eq] at h hp
      rw [hname] at hp
      omega
    · rw [if_neg h]
      exact ih (n + 1)

/-- The element found by `find?` sits at index `findIdx`. -/
lemma find?_eq_getElem?_findIdx {α : Type} (p : α → Bool) :
    ∀ l : List α, l.find? p = l[l.findIdx p]? := by
  intro l
  induction l with
  | nil => rfl
  | cons x xs ih =>
    by_cases h : p x = true
    · simp [List.find?_cons_of_pos _ h, List.findIdx_cons, h]
    · simp only [Bool.not_eq_true] at h
      have hneg : ¬ p x = true := by simp [h]
      simp [List.find?_cons_of_neg xs hneg, List.findIdx_cons, h, ih]

/-- Rounding of 16/9 times a natural height: the integer formula used in the
embedding agrees with rounding (half up) of the exact rational. -/
lemma roundSixteenNinths_eq_round (h : Nat) :
    (roundSixteenNinths h : ℤ) = round ((h : ℚ) * (16 / 9)) := by
  have hq : (h : ℚ) * (16 / 9) + 1 / 2 = ((h * 32 + 9 : ℕ) : ℚ) / 18 := by
    push_cast
    ring
  have key1 : ((h * 32 + 9) / 18) * 18 ≤ h * 32 + 9 := by omega
  have key2 : h * 32 + 9 < ((h * 32 + 9) / 18 + 1) * 18 := by omega
  rw [round_eq, hq]
  symm
  rw [Int.floor_eq_iff]
  constructor
  · rw [le_div_iff₀ (by norm_num : (0:ℚ) < 18)]
    rw [roundSixteenNinths]
    push_cast
    exact_mod_cast key1
  · rw [div_lt_iff₀ (by norm_num : (0:ℚ) < 18)]
    rw [roundSixteenNinths]
    push_cast
    exact_mod_cast key2

/-!
Claim theorems.
-/

/-- C1, counterexample.  The claim says toggle then toggle of the same
Pattern candidate from an empty Selection returns the Selection to None,
and that emptying the list always collapses to None.  On the code the
second toggle yields the empty pattern list, which is a different value
from the special source None: the `?? "None"` fallback of line 509 fires
only for an undefined selection, never for a list that filtered to empty. -/
theorem toggle_toggle_not_none :
    update (some (update none (.node { name := some "Firefox" }))) (.node { name := some "Firefox" }) =
      .list [] ∧ (AudioSources.list [] ≠ .special .sNone) := ⟨by decide, by decide⟩

/-- C1, amended.  Toggling a selected Pattern candidate removes every stored
entry that matches it (lines 508-511); when the removal empties the list the
Selection becomes the empty list rather than None, so toggle then toggle of
the same candidate from the uninitialized Selection yields the empty pattern
list. -/
theorem toggle_removes_matching (l : List Node) (v n : Node)
    (h : isSelected (some (.list l)) (.node v) = true) :
    update (some (.list l)) (.node v) = .list (l.filter (fun x => ! hasMatchingProps x v)) ∧
    update (some (update none (.node n))) (.node n) = .list [] := by
  constructor
  · simp only [update, isSpecialAudioSources, h, if_true, if_false, Bool.false_eq_true]
  · have h1 : update none (.node n) = .list [n] := rfl
    rw [h1]
    have h2 : isSelected (some (.list [n])) (.node n) = true := by
      simp [isSelected, hasMatchingProps_refl]
    simp only [update, isSpecialAudioSources, h2, if_true, Bool.false_eq_true, if_false]
    simp [hasMatchingProps_refl]

/-- C1, witness for the amended theorem at a concrete singleton selection. -/
theorem toggle_removes_matching_witness :
    update (some (.list [{ name := some "Firefox" }])) (.node { name := some "Firefox" }) =
      .list (List.filter (fun x => ! hasMatchingProps x { name := some "Firefox" })
        [{ name := some "Firefox" }]) ∧
    update (some (update none (.node { name := some "Firefox" }))) (.node { name := some "Firefox" }) =
      .list [] :=
  toggle_removes_matching [{ name := some "Firefox" }] { name := some "Firefox" }
    { name := some "Firefox" } (by decide)

/-- C2, counterexample.  The claim says the processId-suffixed item is
emitted only when the node's processId is present.  On the code the push of
lines 436-439 is unguarded: a node with only a name still yields a second
item labelled "Firefox (undefined)". -/
theorem pid_item_without_pid :
    ({ name := some "Firefox" } : Node).pid = none ∧
    mapToAudioItem (.node { name := some "Firefox" }) true =
      [{ name := some "Firefox", value := .node { name := some "Firefox" } },
       { name := some "Firefox (undefined)", value := .node { name := some "Firefox" } }] :=
  ⟨rfl, by decide⟩

/-- C2, amended.  With granular selection the processId-suffixed refinement
item is emitted unconditionally whenever a base item exists, at index 1,
with the label of the base plus the rendered processId: for a node with a
truthy name the base is the name item and the pid pattern is the name key
plus the processId key; for a node without a truthy name the base is the
binary item of lines 427-429 and the pid pattern is the binary key plus the
processId key.  The node named Firefox with processId 42 yields exactly the
candidates labelled "Firefox" and "Firefox (42)", both of whose patterns
contain the name key. -/
theorem pid_item_unconditional (n : Node) :
    (truthy n.name = true →
      (mapToAudioItem (.node n) true)[1]? =
        some { name := some (jsStr n.name ++ " (" ++ jsStr n.pid ++ ")"),
               value := .node { name := n.name, pid := n.pid } }) ∧
    (truthy n.name = false →
      (mapToAudioItem (.node n) true)[1]? =
        some { name := some (jsStr n.binary ++ " (" ++ jsStr n.pid ++ ")"),
               value := .node { binary := n.binary, pid := n.pid } }) ∧
    mapToAudioItem (.node { name := some "Firefox", pid := some "42" }) true =
      [{ name := some "Firefox", value := .node { name := some "Firefox" } },
       { name := some "Firefox (42)", value := .node { name := some "Firefox", pid := some "42" } }] := by
  refine ⟨?_, ?_, by decide⟩
  · intro h
    simp only [mapToAudioItem, h, if_true, Bool.not_true, Bool.false_eq_true, if_false,
      List.headD, asNode, fallbackItem]
    cases h3 : truthy n.mediaName <;> cases h4 : truthy n.mediaClass <;>
      simp [h3, h4]
  · intro h
    simp only [mapToAudioItem, h, Bool.false_eq_true, if_false, Bool.not_false, if_true,
      List.nil_append, List.headD, asNode, fallbackItem]
    cases h3 : truthy n.mediaName <;> cases h4 : truthy n.mediaClass <;>
      simp [h3, h4]

/-- C2, witness for the amended theorem: the name-based case at the Firefox
node with processId 42, and the binary-based case at a node with only a
process binary and processId 42. -/
theorem pid_item_unconditional_witness :
    (mapToAudioItem (.node { name := some "Firefox", pid := some "42" }) true)[1]? =
      some { name := some (jsStr (some "Firefox") ++ " (" ++ jsStr (some "42") ++ ")"),
             value := .node { name := some "Firefox", pid := some "42" } } ∧
    (mapToAudioItem (.node { binary := some "firefox-bin", pid := some "42" }) true)[1]? =
      some { name := some (jsStr (some "firefox-bin") ++ " (" ++ jsStr (some "42") ++ ")"),
             value := .node { binary := some "firefox-bin", pid := some "42" } } :=
  ⟨(pid_item_unconditional { name := some "Firefox", pid := some "42" }).1 (by decide),
   (pid_item_unconditional { binary := some "firefox-bin", pid := some "42" }).2.1 (by decide)⟩

/-- C3, counterexample.  The claim says that when the connection's stream
has no video track the delayed step is a no-op rather than an error.  On the
code `getVideoTracks()[0]` is not guarded, so the spread
`track.getConstraints()` throws a TypeError outside the inner try/catch. -/
theorem applyToTrack_missing_track_throws :
    applyToTrack [{ streamUserId := "1234", videoTracks := [] }] "1234" 60 1920 1080 =
      .error "TypeError" := rfl

/-- C3, amended.  The delayed applyToTrack step is a no-op when the local
user's connection has disappeared, and a failure of applyConstraints is
caught and logged, never escalated; but a connection whose stream has no
video track makes the callback throw instead of being a no-op. -/
theorem applyToTrack_guards (conns : List Connection) (uid : String) (fr w h : Nat) :
    (conns.find? (fun c => c.streamUserId == uid) = none →
      applyToTrack conns uid fr w h = .ok .noConnection) ∧
    (∀ conn track, conns.find? (fun c => c.streamUserId == uid) = some conn →
      conn.videoTracks.head? = some track → track.applyOk = false →
      applyToTrack conns uid fr w h = .ok .applyFailedLogged) := by
  constructor
  · intro h1
    simp [applyToTrack, h1]
  · intro conn track h1 h2 h3
    simp [applyToTrack, h1, h2, h3]

/-- C3, witness: a connection whose applyConstraints fails is handled by the
inner catch and reported as a logged failure, not an error. -/
theorem applyToTrack_guards_witness :
    applyToTrack [{ streamUserId := "1234", videoTracks := [{ applyOk := false }] }] "1234" 60 1920 1080 =
      .ok .applyFailedLogged :=
  (applyToTrack_guards [{ streamUserId := "1234", videoTracks := [{ applyOk := false }] }]
      "1234" 60 1920 1080).2
    { streamUserId := "1234", videoTracks := [{ applyOk := false }] } { applyOk := false }
    (by decide) (by decide) (by decide)

/-- C4.  Quality settings with resolution 1080 and fps 60 derive the profile
height 1080, width 1920, frameRate 60, pixelCount = height times width, and
the fixed bitrate bounds 500000 / 8000000 / 600000; the bitrate constants
are the same for every settings value, pixelCount is always height times
width, and the width formula is exactly rounding of height times 16/9. -/
theorem quality_at_1080p60 (s : StreamSettings)
    (hres : s.resolution = .r1080) (hfps : s.fps = .f60) :
    qualityProfile s =
      { frameRate := 60, width := 1920, height := 1080, pixelCount := 2073600,
        bitrateMin := 500000, bitrateMax := 8000000, bitrateTarget := 600000 } ∧
    (∀ t : StreamSettings,
      (qualityProfile t).bitrateMin = 500000 ∧
      (qualityProfile t).bitrateMax = 8000000 ∧
      (qualityProfile t).bitrateTarget = 600000 ∧
      (qualityProfile t).pixelCount = (qualityProfile t).height * (qualityProfile t).width ∧
      (qualityProfile t).width = roundSixteenNinths (qualityProfile t).height) ∧
    (∀ hh : Nat, (roundSixteenNinths hh : ℤ) = round ((hh : ℚ) * (16 / 9))) := by
  refine ⟨?_, fun t => ⟨rfl, rfl, rfl, rfl, rfl⟩, roundSixteenNinths_eq_round⟩
  simp [qualityProfile, hres, hfps, StreamResolution.toNumber, StreamFps.toNumber,
    roundSixteenNinths]

/-- C4, witness at the default 1080p60 settings. -/
theorem quality_at_1080p60_witness :
    qualityProfile { resolution := .r1080, fps := .f60 } =
      { frameRate := 60, width := 1920, height := 1080, pixelCount := 2073600,
        bitrateMin := 500000, bitrateMax := 8000000, bitrateTarget := 600000 } :=
  (quality_at_1080p60 { resolution := .r1080, fps := .f60 } rfl rfl).1

/-- C5.  The matcher returns true exactly when every key present in the
pattern has an equal value in the target (extra keys of the target are
ignored), and the relation is not symmetric: a strictly more specific
pattern matches in one direction only. -/
theorem matches_iff_subset :
    (∀ p t : Node, hasMatchingProps p t = true ↔ specSubsetMatch p t) ∧
    (∃ p t : Node, hasMatchingProps p t = true ∧ hasMatchingProps t p = false) := by
  constructor
  · intro p t
    unfold hasMatchingProps specSubsetMatch
    simp only [Bool.and_eq_true, keyMatches_iff]
    tauto
  · exact ⟨{ name := some "a" }, { name := some "a", pid := some "1" }, by decide, by decide⟩

/-- C5, witness: the subset law evaluated at a concrete pattern pair. -/
theorem matches_iff_subset_witness :
    specSubsetMatch { name := some "a" } { name := some "a", pid := some "1" } :=
  (matches_iff_subset.1 { name := some "a" } { name := some "a", pid := some "1" }).mp (by decide)

/-- C6.  Toggling a SpecialMode candidate replaces the Selection wholesale
with that SpecialMode, and toggling a Pattern candidate while the Selection
is a SpecialMode replaces it with the singleton list of that candidate,
discarding the prior special state. -/
theorem toggle_special_replaces (sel : Option AudioSources) (s sp : SpecialSource) (n : Node) :
    update sel (.special s) = .special s ∧
    update (some (.special sp)) (.node n) = .list [n] := ⟨rfl, rfl⟩

/-- C7.  After the dedup-by-label pass every display label occurs at most
once, the item kept for a label is the first item of the input carrying that
label, and no label present in the input disappears. -/
theorem dedup_first_wins (l : List AudioItem) :
    ((dedupByName l).map (fun a => a.name)).Nodup ∧
    (∀ x, x ∈ dedupByName l → l.find? (fun y => y.name == x.name) = some x) ∧
    (∀ x, x ∈ l → ∃ y, y ∈ dedupByName l ∧ y.name = x.name) := by
  refine ⟨dedup_names_nodup_aux l l 0, ?_, ?_⟩
  · intro x hx
    rcases (mem_filterWithIndex (fun v i => uniqueName v i l) l 0 x).mp hx with ⟨j, hj, hp⟩
    unfold uniqueName at hp
    simp only [beq_iff_eq, Nat.zero_add] at hp
    rw [find?_eq_getElem?_findIdx, hp]
    exact hj
  · intro x hx
    have hex : l.findIdx (fun y => y.name == x.name) < l.length := by
      apply List.findIdx_lt_length_of_exists
      exact ⟨x, hx, by simp⟩
    have hy : l[l.findIdx (fun y => y.name == x.name)]? =
        some (l.get ⟨l.findIdx (fun y => y.name == x.name), hex⟩) := by
      rw [List.getElem?_eq_getElem hex]
      rfl
    have hfind : l.find? (fun z => z.name == x.name) =
        some (l.get ⟨l.findIdx (fun y => y.name == x.name), hex⟩) := by
      rw [find?_eq_getElem?_findIdx]
      exact hy
    have hpy := List.find?_some hfind
    simp only [beq_iff_eq] at hpy
    refine ⟨l.get ⟨l.findIdx (fun y => y.name == x.name), hex⟩, ?_, hpy⟩
    apply (mem_filterWithIndex (fun v i => uniqueName v i l) l 0 _).mpr
    refine ⟨l.findIdx (fun y => y.name == x.name), hy, ?_⟩
    unfold uniqueName
    simp only [hpy, beq_iff_eq, Nat.zero_add]

/-- C7, witness: of two distinct items both labelled "Chrome", the dedup
pass keeps exactly the first. -/
theorem dedup_first_wins_witness :
    [chromeItemA, chromeItemB].find? (fun y => y.name == chromeItemA.name) = some chromeItemA :=
  (dedup_first_wins [chromeItemA, chromeItemB]).2.1 chromeItemA (by decide)

/-- C8.  The STREAM_CLOSE handler calls the backend stop exactly once when
the owner identifier embedded at the end of the composite stream key equals
the local user's identifier, and never calls it otherwise. -/
theorem streamClose_stop_iff (streamKey userId : String) :
    (onStreamClose streamKey userId = 1 ↔ ownerOfStreamKey streamKey = some userId) ∧
    (ownerOfStreamKey streamKey ≠ some userId → onStreamClose streamKey userId = 0) ∧
    onStreamClose streamKey userId ≤ 1 := by
  unfold onStreamClose
  by_cases h : ownerOfStreamKey streamKey = some userId <;> simp [h]

/-- C8, witness: an event owned by another user does not trigger stop. -/
theorem streamClose_stop_iff_witness :
    onStreamClose "stream:1234567:999" "111" = 0 :=
  (streamClose_stop_iff "stream:1234567:999" "111").2.1 (by decide)

/-- C9.  Without current quality settings the options patch is a complete
no-op; with settings it overwrites the three bitrate fields unconditionally
and writes framerate, width, height and pixelCount into the encode
sub-object exactly when that sub-object is present. -/
theorem patchOptions_spec (opts : StreamOpts) (s : StreamSettings) :
    patchStreamQuality none opts = opts ∧
    (patchStreamQuality (some s) opts).bitrateMin = some 500000 ∧
    (patchStreamQuality (some s) opts).bitrateMax = some 8000000 ∧
    (patchStreamQuality (some s) opts).bitrateTarget = some 600000 ∧
    (opts.encode = none → (patchStreamQuality (some s) opts).encode = none) ∧
    (∀ enc, opts.encode = some enc →
      (patchStreamQuality (some s) opts).encode =
        some { enc with
          framerate := some s.fps.toNumber
          width := some (roundSixteenNinths s.resolution.toNumber)
          height := some s.resolution.toNumber
          pixelCount := some (s.resolution.toNumber * roundSixteenNinths s.resolution.toNumber) }) := by
  refine ⟨rfl, ?_, ?_, ?_, ?_, ?_⟩ <;> cases h : opts.encode <;> simp [patchStreamQuality, h]

/-- C9, witness: the encode sub-object of an options object that has one is
patched with the 1080p60 parameters. -/
theorem patchOptions_spec_witness :
    (patchStreamQuality (some { resolution := .r1080, fps := .f60 })
        { encode := some {} }).encode =
      some { framerate := some 60, width := some 1920, height := some 1080,
             pixelCount := some 2073600 } := by
  have h := (patchOptions_spec { encode := some {} }
    { resolution := .r1080, fps := .f60 }).2.2.2.2.2 {} rfl
  simpa using h

/-- C10.  An empty stored pattern list selects nothing, and toggling any
Pattern candidate in that state, or in the uninitialized state, appends it
and yields exactly the singleton list. -/
theorem empty_list_selection (v : AudioSource) (n : Node) :
    isSelected (some (.list [])) v = false ∧
    update (some (.list [])) (.node n) = .list [n] ∧
    update none (.node n) = .list [n] := by
  refine ⟨?_, rfl, rfl⟩
  cases v <;> rfl

end Vesktop
